import Mathlib

/-!
Verification of the deep-research pipeline (langchain-megumi).

This file gives a shallow embedding, in Lean 4, of the parts of the
repository's deep-research engine that the checked properties talk about:

* the LLM invoker with primary→secondary failover and the module-level
  degradation flag (`deepsearch_engine.invoke_llm_with_fallback`,
  `_gemini_degraded`);
* the research-loop counter and router (`reflection`, `evaluate_research`);
* query generation in targeted mode (`generate_query`);
* the Bocha web-search wrapper and the web-research context fallback
  (`bocha_web_search`, `web_research`);
* text cleaning and truncation (`web_scraper.clean_and_truncate`);
* the final citation-resolution pass of `finalize_answer` and the
  source deduplication of `DeepSearchService._build_response`;
* the parallel-list zipping of `verify_facts`.

Text is modelled as `List Char` (named `Str` below); Python dictionaries
that hold string values are modelled as association lists; Python
exceptions (KeyError, ValueError, network errors) are modelled with
`Except`.  Python's `sorted` (a stable sort) is modelled by a stable
insertion sort.  Marker scanning with the regex `\[(\d+)\]` is modelled
by a character-level scanner with the same left-to-right, non-overlapping
semantics.
-/

/-- Text, modelled as a list of characters. -/
abbrev Str := List Char

/-- Whitespace characters recognised by Python's `str.split()` and by the
regex class `\s` (ASCII range). -/
def isPyWs (c : Char) : Bool :=
  c = ' ' ∨ c = '\t' ∨ c = '\n' ∨ c = '\r' ∨ c = '\x0b' ∨ c = '\x0c'

/-- Python `text.split()`: split on runs of whitespace, dropping empty
fields. -/
def pySplitWs (s : Str) : List Str :=
  (List.splitOnP isPyWs s).filter (fun w => w ≠ [])

/-- Python `" ".join(text.split())`: collapse all whitespace runs to a
single space and strip the ends (used by `clean_and_truncate`). -/
def normalizeWs (s : Str) : Str :=
  List.intercalate [' '] (pySplitWs s)

/-- Substring test: Python's `pat in s` for strings. -/
def containsSub (s pat : Str) : Bool :=
  s.tails.any (fun t => pat.isPrefixOf t)

/-- Fuel-indexed body of `replaceList`: each step consumes at least one
character, so any fuel of at least the list's length gives the total
function (the fuel makes the recursion structural, so that the kernel
can evaluate it). -/
def replaceListF (pat rep : Str) : Nat → Str → Str
  | _, [] => []
  | 0, s => s
  | fuel + 1, c :: rest =>
    if pat ≠ [] ∧ pat.isPrefixOf (c :: rest) then
      rep ++ replaceListF pat rep fuel ((c :: rest).drop pat.length)
    else
      c :: replaceListF pat rep fuel rest

/-- Python `s.replace(pat, rep)`: left-to-right, non-overlapping
replacement of every occurrence (the `pat = []` guard mirrors the fact
that the patterns replaced by the code, short-urls, are non-empty; for an
empty pattern the function leaves the text unchanged). -/
def replaceList (pat rep s : Str) : Str :=
  replaceListF pat rep s.length s

/-- Numeric value of a digit string (as Python's `int` on a decimal
string of digits). -/
def digitsVal (ds : Str) : Nat :=
  ds.foldl (fun a c => a * 10 + (c.toNat - 48)) 0

/-- Decimal rendering of a natural number, as a character list
(Python `str(n)`). -/
def natStr (n : Nat) : Str :=
  (toString n).data

/-- Fuel-indexed body of the citation-marker scanner (each step consumes
at least one character; fuel of at least the list's length gives the
total function, and the structural recursion lets the kernel evaluate
it). -/
def scanCitationsF : Nat → Str → List Str
  | _, [] => []
  | 0, _ => []
  | fuel + 1, c :: rest =>
    if c = '[' then
      let ds := rest.takeWhile Char.isDigit
      if ds ≠ [] ∧ rest[ds.length]? = some ']' then
        ds :: scanCitationsF fuel (rest.drop (ds.length + 1))
      else
        scanCitationsF fuel rest
    else
      scanCitationsF fuel rest

/-- Scanner for the regex `\[(\d+)\]` used by `finalize_answer`
(`re.findall` semantics: left-to-right, non-overlapping; returns the
digit strings in order of occurrence). -/
def scanCitations (s : Str) : List Str :=
  scanCitationsF s.length s

/-- Stable insertion into a list sorted by a numeric key (auxiliary to
`sortByKey`). -/
def insertByKey {α : Type} (key : α → Nat) (x : α) : List α → List α
  | [] => [x]
  | b :: l => if key b < key x then b :: insertByKey key x l else x :: b :: l

/-- Python's `sorted(l, key=key)`: a stable sort by a numeric key,
modelled by stable insertion sort (equal-key elements keep their input
order, as Python guarantees). -/
def sortByKey {α : Type} (key : α → Nat) : List α → List α
  | [] => []
  | x :: xs => insertByKey key x (sortByKey key xs)

/-!
## LLM invoker with failover (`invoke_llm_with_fallback`)

The engine keeps a module-level flag `_gemini_degraded` (initially
`False`).  A call first checks the flag: if set, it runs the supplied
function once with the secondary (Qwen) model and rethrows any failure.
Otherwise it runs the function with the primary (Gemini) model for up to
two attempts; if both fail it sets the flag and re-enters the degraded
branch.  The behaviour of the caller-supplied `invoke_func` on each
handle is abstracted as an outcome table.
-/

/-- Outcomes of running the caller-supplied function: `primaryAttempt k`
is the result of attempt `k` on the primary model, `secondary` the result
of the single secondary-model run. -/
structure LLMOutcomes (α : Type) where
  primaryAttempt : Nat → Except String α
  secondary : Except String α

/-- Observable trace of one `invoke_llm_with_fallback` call: the flag
value after the call, the returned or raised result, and how many times
the supplied function ran on each model. -/
structure InvokeTrace (α : Type) where
  degradedAfter : Bool
  result : Except String α
  primaryRuns : Nat
  secondaryRuns : Nat

/-- `invoke_llm_with_fallback` (deepsearch_engine.py, lines 174-315):
`degraded` is the value of the module-level `_gemini_degraded` flag when
the call starts. -/
def invoke_llm_with_fallback {α : Type} (degraded : Bool) (o : LLMOutcomes α) :
    InvokeTrace α :=
  if degraded then
    { degradedAfter := true, result := o.secondary,
      primaryRuns := 0, secondaryRuns := 1 }
  else
    match o.primaryAttempt 0 with
    | .ok v =>
      { degradedAfter := false, result := .ok v,
        primaryRuns := 1, secondaryRuns := 0 }
    | .error _ =>
      match o.primaryAttempt 1 with
      | .ok v =>
        { degradedAfter := false, result := .ok v,
          primaryRuns := 2, secondaryRuns := 0 }
      | .error _ =>
        { degradedAfter := true, result := o.secondary,
          primaryRuns := 2, secondaryRuns := 1 }

/-- A sequence of `invoke_llm_with_fallback` calls, tagged with the id of
the session that issues each call.  Because `_gemini_degraded` is a
module-level global, one flag is threaded through all calls regardless of
session. -/
def runSessionCalls {α : Type} (flag : Bool) :
    List (String × LLMOutcomes α) → List (String × InvokeTrace α)
  | [] => []
  | (sid, o) :: rest =>
    let t := invoke_llm_with_fallback flag o
    (sid, t) :: runSessionCalls t.degradedAfter rest

/-- C2, as the spec states it: a degradation caused by session A's call
never makes a later call of session B skip the primary model. -/
def c2_isolation_claim : Prop :=
  ∀ (oA oB : LLMOutcomes Nat),
    (invoke_llm_with_fallback false oA).degradedAfter = true →
    ((runSessionCalls false [("A", oA), ("B", oB)]).map
        (fun p => p.2.primaryRuns))[1]? ≠ some 0

/-- Always-failing primary, succeeding secondary. -/
def oFailingPrimary : LLMOutcomes Nat :=
  { primaryAttempt := fun _ => .error "boom", secondary := .ok 0 }

/-- A session whose primary would succeed immediately. -/
def oHealthy : LLMOutcomes Nat :=
  { primaryAttempt := fun _ => .ok 7, secondary := .ok 8 }

/-!
## Research-loop counter and router (`reflection`, `evaluate_research`)
-/

/-- The first action of the `reflection` node:
`state["research_loop_count"] = state.get("research_loop_count", 0) + 1`. -/
def reflection_increment (c : Nat) : Nat := c + 1

/-- The `evaluate_research` router (deepsearch_engine.py, lines 880-902):
returns the name of the next node. -/
def evaluate_research (is_sufficient : Bool) (loopCount maxLoops : Nat) :
    String :=
  if is_sufficient then "assess_content_quality"
  else if maxLoops ≤ loopCount then "assess_content_quality"
  else "generate_query"

/-- One run of the research loop: starting from loop count `c`, each
round increments the counter (in `reflection`) and then consults the
router; `suff k` is the sufficiency verdict the LLM returns in round `k`.
Returns the final loop count. -/
def runResearchLoops (maxLoops : Nat) (suff : Nat → Bool) (k c : Nat) : Nat :=
  let c2 := reflection_increment c
  if evaluate_research (suff k) c2 maxLoops = "generate_query" then
    runResearchLoops maxLoops suff (k + 1) c2
  else
    c2
termination_by maxLoops - c
decreasing_by
  rename_i h
  unfold evaluate_research at h
  split at h
  · exact absurd h (by decide)
  · split at h
    · exact absurd h (by decide)
    · rename_i hlt
      have hri : reflection_increment c = c + 1 := rfl
      omega

/-!
## Query generation (`generate_query`), targeted mode

In targeted mode (non-empty `unanswered_questions`) the node computes
`max_queries = min(len(unanswered_questions) * 2,
state.get("initial_search_query_count", 3))`, embeds that number in the
prompt, and then returns whatever query list the planner LLM produced —
the returned list is not clipped to `max_queries`.
-/

/-- Output of one `generate_query` invocation: the query count requested
from the planner in the prompt, and the two state fields of the returned
delta (`search_query` and `new_search_query`, both set to the raw LLM
list `result.query`). -/
structure GenQueryResult where
  maxQueriesRequested : Nat
  search_query : List String
  new_search_query : List String

/-- `generate_query` (deepsearch_engine.py, lines 463-535), abstracted
over the planner LLM's returned query list `llmQueries`.  `initialCount`
is `state.get("initial_search_query_count")` (`none` when the field is
absent, in which case the default 3 applies). -/
def generate_query (unanswered : List String) (initialCount : Option Nat)
    (llmQueries : List String) : GenQueryResult :=
  if 0 < unanswered.length then
    { maxQueriesRequested := min (unanswered.length * 2) (initialCount.getD 3),
      search_query := llmQueries, new_search_query := llmQueries }
  else
    { maxQueriesRequested := initialCount.getD 3,
      search_query := llmQueries, new_search_query := llmQueries }

/-- C7, as the spec states it: in targeted mode the number of emitted
new queries is at most `min(2 × |unanswered_questions|,
initial_search_query_count)`. -/
def c7_query_cap_claim : Prop :=
  ∀ (unanswered : List String) (initialCount : Option Nat)
    (llmQueries : List String), unanswered ≠ [] →
    (generate_query unanswered initialCount llmQueries).new_search_query.length ≤
      min (2 * unanswered.length) (initialCount.getD 3)

/-!
## Query display form (C9)

`generate_query` returns `{"search_query": result.query,
"new_search_query": result.query}` and never emits a
`new_search_query_zh` field; `DeepSearchService.run_stream` (lines
214-234) selects the display list as `new_search_query_zh` when present,
else `search_query`, else `[]`.
-/

/-- The node-output fields of `generate_query` that `run_stream` reads;
`new_search_query_zh` is the (never produced) display form. -/
structure GenerateQueryOutput where
  search_query : List String
  new_search_query : List String
  new_search_query_zh : Option (List String)

/-- The state delta returned by `generate_query`: both query fields carry
the planner's list and no display-form field is emitted. -/
def generate_query_output (llmQueries : List String) : GenerateQueryOutput :=
  { search_query := llmQueries,
    new_search_query := llmQueries,
    new_search_query_zh := none }

/-- The display-query selection of `DeepSearchService.run_stream`:
prefer `new_search_query_zh`, else fall back to `search_query`. -/
def display_queries (out : GenerateQueryOutput) : List String :=
  match out.new_search_query_zh with
  | some zh => zh
  | none => out.search_query

/-!
## Fact verification (`verify_facts`, C10)

The `FactVerification` schema returns parallel flat lists; the node zips
them into pair lists.  (The schema also carries a float
`confidence_score`, which plays no role in the zipping and is omitted
from the embedding.)
-/

/-- The list-valued fields of the `FactVerification` structured output
(deepsearch_types.py, lines 78-101). -/
structure FactVerification where
  verified_facts_text : List String
  verified_facts_sources : List String
  disputed_claims_text : List String
  disputed_claims_reasons : List String
  verification_sources : List String

/-- The pairing step of `verify_facts` (deepsearch_engine.py, lines
1006-1023): zip facts with sources and disputed claims with reasons. -/
def verify_facts_pairs (r : FactVerification) :
    List (String × String) × List (String × String) :=
  (r.verified_facts_text.zip r.verified_facts_sources,
   r.disputed_claims_text.zip r.disputed_claims_reasons)

/-!
## Text cleaning and truncation (`web_scraper.clean_and_truncate`)

The Python code compares the integer position returned by `rfind` with
`max_chars * 0.8`.  For an integer position `p` and cap `C`, the
comparison `p > C * 0.8` is modelled exactly by `4 * C < 5 * p`: when
`C` is divisible by 5 the float product `C * 0.8` is exactly `4C/5`
(the rounding error of the double `0.8` is smaller than half an ulp of
the product), and otherwise the comparison of the integer `p` against
the float cannot cross the gap of at least `1/5` between `4C/5` and the
nearest integer.
-/

/-- Python `s.rfind(c)`: index of the last occurrence of the character
`c`, `none` when absent (Python returns `-1`; every guard in the code
compares the result against a non-negative quantity, so `none` behaves
as "condition false"). -/
def rfindIdx (c : Char) : Str → Option Nat
  | [] => none
  | x :: xs =>
    match rfindIdx c xs with
    | some p => some (p + 1)
    | none => if x = c then some 0 else none

/-- The space-cut fallback of `clean_and_truncate`: cut at the last
space when it lies strictly inside the tail 20% of the cap. -/
def spaceCut (t1 : Str) (maxChars : Nat) : Str :=
  match rfindIdx ' ' t1 with
  | some q => if 4 * maxChars < 5 * q then t1.take q else t1
  | none => t1

/-- The sentence-cut step of `clean_and_truncate`: cut after the last
ideographic full stop when it lies strictly inside the tail 20% of the
cap, else fall back to the space cut. -/
def periodCut (t1 : Str) (maxChars : Nat) : Str :=
  match rfindIdx '。' t1 with
  | some p =>
    if 4 * maxChars < 5 * p then t1.take (p + 1) else spaceCut t1 maxChars
  | none => spaceCut t1 maxChars

/-- `clean_and_truncate` (web_scraper.py, lines 177-209): normalise
whitespace, hard-truncate to `maxChars`, then prefer a cut at the last
`'。'` strictly inside the tail 20% of the cap, else at the last
space strictly inside that region. -/
def clean_and_truncate (text : Str) (maxChars : Nat) : Str :=
  if text = [] then []
  else
    let t := normalizeWs text
    if maxChars < t.length then periodCut (t.take maxChars) maxChars
    else t

/-- Sentence-ending punctuation in the sense of the spec's wording
(ASCII and full-width sentence terminators plus the ideographic full
stop). -/
def c5SentencePunct (c : Char) : Bool :=
  c = '。' ∨ c = '.' ∨ c = '!' ∨ c = '?' ∨ c = '！' ∨ c = '？'

/-- C5, as the spec states it: when the normalised document is longer
than the cap and a sentence-ending punctuation mark or whitespace lies
within the last 20% of the cap, the emitted text ends at such a cut
point (and the emitted text always fits the cap). -/
def c5_truncation_claim : Prop :=
  ∀ (D : Str) (C : Nat), 0 < C →
    (clean_and_truncate D C).length ≤ C ∧
    (C < (normalizeWs D).length →
      (∃ p ∈ List.range C,
          ((((normalizeWs D).take C)[p]?).any
            (fun c => c5SentencePunct c || isPyWs c)) ∧ 4 * C ≤ 5 * p) →
      ((((clean_and_truncate D C).getLast?).any c5SentencePunct ∧
          4 * C ≤ 5 * ((clean_and_truncate D C).length - 1)) ∨
       ((((normalizeWs D).take C)[(clean_and_truncate D C).length]?).any isPyWs ∧
          ((normalizeWs D).take C).take (clean_and_truncate D C).length =
            clean_and_truncate D C ∧
          4 * C ≤ 5 * (clean_and_truncate D C).length)))

/-!
## Web search (`bocha_web_search`) and the web-research context fallback

The upstream HTTP exchange is abstracted as an outcome: either an
exception, or a status code plus the decoded JSON body (its provider
`code`, the truthiness of its `data` field, the `webPages.value` list,
and its error message / response text).
-/

/-- A Bocha search-result page (the fields the code reads). -/
structure WebPage where
  name : String
  url : String
  summary : String
  siteName : String
  siteIcon : String
  dateLastCrawled : String
deriving DecidableEq

/-- Decoded JSON body of a Bocha response: provider result code,
truthiness of `data`, the `webPages.value` list, and the provider
message (also standing for the raw response text in the non-200 case). -/
structure BochaBody where
  code : Nat
  dataPresent : Bool
  webpages : List WebPage
  msg : String

/-- Outcome of the HTTP POST to the search endpoint. -/
inductive UpstreamOutcome where
  | exn : String → UpstreamOutcome
  | resp : Nat → BochaBody → UpstreamOutcome

/-- What `bocha_web_search` returns on success: the page list and the
formatted context text. -/
structure SearchOutput where
  webpages : List WebPage
  formatted_text : String
deriving DecidableEq

/-- One `[引用 N]` block of `format_bocha_search_results`. -/
def formatPage (idx : Nat) (p : WebPage) : String :=
  "[引用 " ++ toString idx ++ "]\n标题: " ++ p.name ++ "\nURL: " ++ p.url ++
    "\n摘要: " ++ p.summary ++ "\n网站名称: " ++ p.siteName ++
    "\n网站图标: " ++ p.siteIcon ++ "\n发布时间: " ++ p.dateLastCrawled ++ "\n\n"

/-- `format_bocha_search_results` (deepsearch_utils.py): enumerate the
pages as `[引用 N]` blocks (1-based) and strip the trailing blank
lines. -/
def format_bocha_search_results (webpages : List WebPage) : String :=
  if webpages.isEmpty then "未找到相关结果。"
  else
    (String.join
      (((List.range webpages.length).zip webpages).map
        (fun p => formatPage (p.1 + 1) p.2))).trim

/-- `bocha_web_search` (deepsearch_engine.py, lines 549-615): raises
only when the API key is missing; otherwise returns normally, with an
empty page list and a failure message for every upstream failure. -/
def bocha_web_search (hasKey : Bool) (u : UpstreamOutcome) :
    Except String SearchOutput :=
  if hasKey = false then
    .error "BOCHA_API_KEY is not set in environment variables"
  else
    match u with
    | .exn e => .ok ⟨[], "搜索API请求失败，原因是：" ++ e⟩
    | .resp status body =>
      if status = 200 then
        if body.code ≠ 200 ∨ body.dataPresent = false then
          .ok ⟨[], "搜索API请求失败，原因是: " ++ body.msg⟩
        else if body.webpages.isEmpty then
          .ok ⟨[], "未找到相关结果。"⟩
        else
          .ok ⟨body.webpages, format_bocha_search_results body.webpages⟩
      else
        .ok ⟨[], "搜索API请求失败，状态码: " ++ toString status ++
              ", 错误信息: " ++ body.msg⟩

/-- Whether the upstream exchange counts as a failure (HTTP non-200,
provider error code, missing/empty `data`, empty page list, or a network
exception). -/
def upstream_failed (u : UpstreamOutcome) : Bool :=
  match u with
  | .exn _ => true
  | .resp status body =>
    if status = 200 then
      if body.code ≠ 200 ∨ body.dataPresent = false then true
      else body.webpages.isEmpty
    else true

/-- The failure text `bocha_web_search` returns for a failed upstream
exchange. -/
def bocha_failure_text (u : UpstreamOutcome) : String :=
  match u with
  | .exn e => "搜索API请求失败，原因是：" ++ e
  | .resp status body =>
    if status = 200 then
      if body.code ≠ 200 ∨ body.dataPresent = false then
        "搜索API请求失败，原因是: " ++ body.msg
      else "未找到相关结果。"
    else
      "搜索API请求失败，状态码: " ++ toString status ++ ", 错误信息: " ++ body.msg

/-- The page list carried by a successful upstream exchange. -/
def UpstreamOutcome.pages : UpstreamOutcome → List WebPage
  | .exn _ => []
  | .resp _ body => body.webpages

/-- The deep-scraped documents assembled by `web_research`: the top-k
pages paired (1-based) with the scraped text found for their URL. -/
def deep_docs_of (webpages : List WebPage) (scraped : List (String × String))
    (topK : Nat) : List (Nat × String × String × String) :=
  ((List.range (webpages.take topK).length).zip (webpages.take topK)).filterMap
    (fun p =>
      match (scraped.find? (fun s => s.1 = p.2.url)).map Prod.snd with
      | some text => some (p.1 + 1, p.2.name, p.2.url, text)
      | none => none)

/-- The `[idx] 标题/URL/正文` context block built from the deep-scraped
documents. -/
def buildDeepContext (docs : List (Nat × String × String × String)) : String :=
  String.intercalate "\n"
    (docs.map (fun d =>
      "[" ++ toString d.1 ++ "] 标题: " ++ d.2.1 ++ "\nURL: " ++ d.2.2.1 ++
        "\n正文:\n" ++ d.2.2.2 ++ "\n---"))

/-- The LLM-context selection of `web_research` (deepsearch_engine.py,
lines 693-722): use the truncated deep-scrape context when at least one
document was scraped, else fall back to the search provider's formatted
text. -/
def web_research_context (webpages : List WebPage)
    (scraped : List (String × String)) (topK maxTotal : Nat)
    (formatted : String) : String :=
  let deepDocs := deep_docs_of webpages scraped topK
  if deepDocs.isEmpty then formatted
  else
    String.mk (clean_and_truncate (buildDeepContext deepDocs).data maxTotal)

/-!
## The final citation-resolution pass of `finalize_answer`

`finalize_answer` (deepsearch_engine.py, lines 1268-1338) scans the LLM
report for `\[(\d+)\]` markers, replaces every gathered source's
`source["shortUrl"]` by `source["value"]` in the report, sorts the
gathered sources by the citation number extracted from their short-url
(regex `/id/\d+-(\d+)$`, default 999999), renumbers them 1..n in that
order, and — when markers were found and no references heading is
already present — appends a `## 参考来源` section listing, for each
cited number, the so-numbered source or the line `来源未找到` ("source
not found").

The gathered sources are Python dictionaries; they are modelled as
association lists so that the code's key accesses (including the
`source["shortUrl"]` subscript, which raises `KeyError` on the
`short_url`-keyed segment dictionaries that `web_research` actually
produces) keep their exact semantics.
-/

/-- A Python dictionary with string keys and string values. -/
abbrev Entry := List (Str × Str)

/-- Python `d.get(k)`: the first binding of `k`, if any. -/
def pyGet (e : Entry) (k : Str) : Option Str :=
  (e.find? (fun p => p.1 = k)).map Prod.snd

/-- Python `d.get(k, dflt)`. -/
def pyGetD (e : Entry) (k dflt : Str) : Str :=
  (pyGet e k).getD dflt

/-- One iteration of the short-url replacement loop:
`if source["shortUrl"] in enhanced_content: enhanced_content =
enhanced_content.replace(source["shortUrl"], source["value"])`.
The subscript accesses raise `KeyError` when the key is absent. -/
def replaceStep (content : Str) (e : Entry) : Except String Str :=
  match pyGet e ("shortUrl".data) with
  | none => .error "KeyError: 'shortUrl'"
  | some su =>
    if containsSub content su then
      match pyGet e ("value".data) with
      | none => .error "KeyError: 'value'"
      | some v => .ok (replaceList su v content)
    else .ok content

/-- The whole short-url replacement loop of `finalize_answer`. -/
def replaceAllSources : List Entry → Str → Except String Str
  | [], content => .ok content
  | e :: es, content =>
    match replaceStep content e with
    | .error err => .error err
    | .ok c2 => replaceAllSources es c2

/-- `extract_citation_num`: the citation number encoded in a source's
short-url, via the regex `/id/\d+-(\d+)$` on `source.get("shortUrl", "")`
(999999 when the pattern does not match). -/
def parseIdSuffix (s : Str) : Option Nat :=
  let r := s.reverse
  let d1 := r.takeWhile Char.isDigit
  match r.drop d1.length with
  | '-' :: r2 =>
    let d2 := r2.takeWhile Char.isDigit
    if d1 ≠ [] ∧ d2 ≠ [] ∧ ("/di/".data).isPrefixOf (r2.drop d2.length) then
      some (digitsVal d1.reverse)
    else none
  | _ => none

/-- `extract_citation_num` on a source dictionary. -/
def extract_citation_num (e : Entry) : Nat :=
  (parseIdSuffix (pyGetD e ("shortUrl".data) [])).getD 999999

/-- `sorted(sources_gathered, key=extract_citation_num)` (Python's sort
is stable). -/
def sortedEntries (l : List Entry) : List Entry :=
  sortByKey extract_citation_num l

/-- The keywords of the references-heading regex
`#+\s*(参考来源|引用|来源|参考资料|References)` (IGNORECASE: the text is
lowercased before comparison, so the last keyword is kept lowercase). -/
def refKeywords : List Str :=
  ["参考来源".data, "引用".data, "来源".data, "参考资料".data,
   "references".data]

/-- Whether the heading regex matches at the start of the given suffix:
one or more `#`, then whitespace, then one of the keywords. -/
def headMatch : Str → Bool
  | [] => false
  | c :: r =>
    if c = '#' then
      refKeywords.any (fun kw =>
        kw.isPrefixOf
          (((r.dropWhile (fun c2 => c2 = '#')).dropWhile isPyWs).map
            Char.toLower))
    else false

/-- `re.search(r'#+\s*(参考来源|引用|来源|参考资料|References)', text,
re.IGNORECASE)`: the heading pattern matches somewhere in the text. -/
def hasRefHeading (s : Str) : Bool :=
  s.tails.any headMatch

/-- The header text prepended to the appended references section. -/
def refHeaderStr : Str :=
  "\n\n---\n\n## 参考来源\n\n".data

/-- `sorted([int(c) for c in set(found_citations)])`: deduplicate the
scanned digit strings, convert to integers, sort ascending. -/
def sortedCitations (found : List Str) : List Nat :=
  sortByKey (fun n => n) ((found.dedup).map digitsVal)

/-- The references line emitted for citation number `n`: the
`n`-th source (1-based) of the renumbered sorted list when `n` is in
range, else the `来源未找到` ("source not found") line. -/
def refLine (sorted : List Entry) (n : Nat) : Str :=
  if 1 ≤ n ∧ n ≤ sorted.length then
    natStr n ++ (". [".data) ++
      pyGetD (sorted.getD (n - 1) []) ("label".data)
        ("来源 ".data ++ natStr n) ++
      ("](".data) ++ pyGetD (sorted.getD (n - 1) []) ("value".data) [] ++
      (")\n".data)
  else
    natStr n ++ (". 来源未找到\n".data)

/-- The `来源未找到` ("source not found") line for citation number
`n`. -/
def notFoundLine (n : Nat) : Str :=
  natStr n ++ (". 来源未找到\n".data)

/-- All reference lines appended for the scanned citation numbers. -/
def refLines (found : List Str) (sorted : List Entry) : List Str :=
  (sortedCitations found).map (refLine sorted)

/-- The full appended references section. -/
def refSectionText (found : List Str) (sorted : List Entry) : Str :=
  refHeaderStr ++ (refLines found sorted).flatten

/-- The citation-resolution pass of `finalize_answer`: scan the report
for markers, run the short-url replacement loop (which can raise
`KeyError`), and append the references section exactly when markers were
found and no references heading is present; returns the final report and
the renumbered source list (`unique_sources`). -/
def finalize_citation_pass (final_report : Str) (entries : List Entry) :
    Except String (Str × List Entry) :=
  match replaceAllSources entries final_report with
  | .error e => .error e
  | .ok enhanced =>
    let found := scanCitations final_report
    let sorted := sortedEntries entries
    if found.isEmpty then .ok (enhanced, sorted)
    else if hasRefHeading enhanced then .ok (enhanced, sorted)
    else .ok (enhanced ++ refSectionText found sorted, sorted)

/-- The reference lines the pass appends (empty when nothing is
appended). -/
def appendedRefLines (report : Str) (entries : List Entry) : List Str :=
  match replaceAllSources entries report with
  | .error _ => []
  | .ok enhanced =>
    if (scanCitations report).isEmpty then []
    else if hasRefHeading enhanced then []
    else refLines (scanCitations report) (sortedEntries entries)

/-- A gathered source whose replacement value re-introduces its own
short-url (`S` ↦ `S!`). -/
def srcEntryExcl : Entry :=
  [("label".data, "t".data), ("shortUrl".data, "S".data),
   ("value".data, "S!".data)]

/-- A gathered source with an innocuous replacement value (`S` ↦ `V`). -/
def srcEntryV : Entry :=
  [("label".data, "t".data), ("shortUrl".data, "S".data),
   ("value".data, "V".data)]

/-- A report citing one source and containing that source's short-url. -/
def c6Report : Str := "[1] S".data

/-- The output of the first pass on `c6Report` with `srcEntryExcl`. -/
def c6R1 : Str := "[1] S!\n\n---\n\n## 参考来源\n\n1. [t](S!)\n".data

/-- The output of the first pass on `c6Report` with `srcEntryV`. -/
def c6R1V : Str := "[1] V\n\n---\n\n## 参考来源\n\n1. [t](V)\n".data

/-- C6, as the spec states it: applying the final citation-resolution
pass a second time to its own output leaves the report (and the source
list) unchanged. -/
def c6_idempotence_claim : Prop :=
  ∀ (report : Str) (entries : List Entry) (r1 : Str) (sorted : List Entry),
    finalize_citation_pass report entries = .ok (r1, sorted) →
    finalize_citation_pass r1 entries = .ok (r1, sorted)

/-!
## The response's source list (`DeepSearchService._build_response`)
-/

/-- A `DeepSource` of the response model: the three fields are filled
with `source.get(...)`, hence optional. -/
structure DeepSource where
  label : Option Str
  short_url : Option Str
  value : Option Str
deriving DecidableEq

/-- Python `url.rstrip('/')`. -/
def rstripSlash (s : Str) : Str :=
  (s.reverse.dropWhile (fun c => c = '/')).reverse

/-- `" ".join(label.lower().split())`: the label normalisation of the
response deduplication. -/
def normLabel (s : Str) : Str :=
  List.intercalate [' '] (pySplitWs (s.map Char.toLower))

/-- The `sources` list of `DeepSearchService._build_response` (lines
377-397): keep each gathered source with a non-empty url whose
(normalised url, normalised label) pair was not seen before. -/
def build_response_sources (gathered : List Entry) : List DeepSource :=
  (gathered.foldl
    (fun acc e =>
      match pyGet e ("value".data) with
      | some u =>
        if u ≠ [] ∧
            (rstripSlash u, normLabel (pyGetD e ("label".data) [])) ∉ acc.1 then
          ((rstripSlash u, normLabel (pyGetD e ("label".data) [])) :: acc.1,
           acc.2 ++ [⟨pyGet e ("label".data), pyGet e ("shortUrl".data),
             pyGet e ("value".data)⟩])
        else acc
      | none => acc)
    (([], []) : List (Str × Str) × List DeepSource)).2

/-- The trailing integer suffix of a short-url (the maximal digit run at
the end of the string), in the sense of the claim's wording. -/
def trailingInt (o : Option Str) : Option Nat :=
  match o with
  | none => none
  | some s =>
    let ds := s.reverse.takeWhile Char.isDigit
    if ds = [] then none else some (digitsVal ds.reverse)

/-- C1, as the spec states it: for every marker `[N]` in the final
answer, exactly one entry of the response's sources list has a short-url
whose trailing integer suffix equals `N`, or the appended references
section records `来源未找到` ("source not found") for `N`.  (The final
state's `sources_gathered`, from which the response list is built, is
the concatenation of the gathered segment entries and the renumbered
list returned by `finalize_answer`, both fed through the `operator.add`
reducer.) -/
def c1_citation_closure_claim : Prop :=
  ∀ (report : Str) (entries : List Entry) (answer : Str)
    (sorted : List Entry),
    finalize_citation_pass report entries = .ok (answer, sorted) →
    ∀ ds ∈ scanCitations answer,
      ((build_response_sources (entries ++ sorted)).countP
        (fun s => trailingInt s.short_url == some (digitsVal ds))) = 1 ∨
      notFoundLine (digitsVal ds) ∈ appendedRefLines report entries

/-- A report that carries a `[1]` marker and its own references
heading. -/
def c1Report : Str := "结论 [1]。\n\n## 参考来源\n\n1. 已有来源".data

/-- A report with two markers, one of them out of range, plus a
short-url occurrence. -/
def c1ReportW : Str := "[1] [5] S".data

/-- The replacement-loop output for `c1ReportW` with `srcEntryV`. -/
def c1EnhW : Str := "[1] [5] V".data

/-!
## Theorems
-/

theorem mem_insertByKey {α : Type} (key : α → Nat) (x a : α) (l : List α) :
    a ∈ insertByKey key x l ↔ a = x ∨ a ∈ l := by
  induction l with
  | nil => simp [insertByKey]
  | cons b t ih =>
    by_cases h : key b < key x
    · simp only [insertByKey, if_pos h, List.mem_cons, ih]
      tauto
    · simp only [insertByKey, if_neg h, List.mem_cons]

theorem mem_sortByKey {α : Type} (key : α → Nat) (a : α) (l : List α) :
    a ∈ sortByKey key l ↔ a ∈ l := by
  induction l with
  | nil => simp [sortByKey]
  | cons x xs ih =>
    simp only [sortByKey, mem_insertByKey, ih, List.mem_cons]

/-- C2 (counterexample): the degradation flag is a module-level global,
so after session A's two primary attempts fail, session B's next call
runs the supplied function zero times on the primary model — it goes
straight to the secondary. -/
theorem c2_isolation_counterexample : ¬ c2_isolation_claim := by
  intro h
  exact (h oFailingPrimary oHealthy rfl) rfl

/-- C2 (amended): degradation is process-global, not per-session.  If
both primary attempts of session A's call fail (setting the flag), then
the next call — including one from a different session B — skips the
primary model entirely and runs once on the secondary. -/
theorem c2_global_degradation (sA sB : String) (oA oB : LLMOutcomes Nat)
    (hA : (invoke_llm_with_fallback false oA).degradedAfter = true) :
    (runSessionCalls false [(sA, oA), (sB, oB)]).map
        (fun p => p.2.primaryRuns) =
      [(invoke_llm_with_fallback false oA).primaryRuns, 0] ∧
    (runSessionCalls false [(sA, oA), (sB, oB)]).map
        (fun p => p.2.secondaryRuns) =
      [(invoke_llm_with_fallback false oA).secondaryRuns, 1] := by
  simp only [runSessionCalls, hA, List.map_cons, List.map_nil]
  constructor <;> rfl

/-- C2 witness: the amended theorem applied at a concrete pair of
sessions. -/
theorem c2_global_degradation_witness :
    (runSessionCalls false [("A", oFailingPrimary), ("B", oHealthy)]).map
        (fun p => p.2.primaryRuns) =
      [(invoke_llm_with_fallback false oFailingPrimary).primaryRuns, 0] ∧
    (runSessionCalls false [("A", oFailingPrimary), ("B", oHealthy)]).map
        (fun p => p.2.secondaryRuns) =
      [(invoke_llm_with_fallback false oFailingPrimary).secondaryRuns, 1] :=
  c2_global_degradation "A" "B" oFailingPrimary oHealthy rfl

/-- C4: in a single invoker call for a non-degraded session the supplied
function runs at most twice on the primary model and at most once on the
secondary; the flag is set exactly when both primary attempts raise, in
which case the single secondary run's outcome (success or failure) is
returned to the caller; when the call does not degrade, the secondary is
never run. -/
theorem c4_invoker_attempt_bound {α : Type} (o : LLMOutcomes α) :
    (invoke_llm_with_fallback false o).primaryRuns ≤ 2 ∧
    (invoke_llm_with_fallback false o).secondaryRuns ≤ 1 ∧
    ((invoke_llm_with_fallback false o).degradedAfter = true ↔
      ((∃ e, o.primaryAttempt 0 = .error e) ∧
       (∃ e, o.primaryAttempt 1 = .error e))) ∧
    ((invoke_llm_with_fallback false o).degradedAfter = true →
      (invoke_llm_with_fallback false o).secondaryRuns = 1 ∧
      (invoke_llm_with_fallback false o).result = o.secondary) ∧
    ((invoke_llm_with_fallback false o).degradedAfter = false →
      (invoke_llm_with_fallback false o).secondaryRuns = 0) := by
  rcases h0 : o.primaryAttempt 0 with e0 | v0
  · rcases h1 : o.primaryAttempt 1 with e1 | v1
    · simp [invoke_llm_with_fallback, h0, h1]
    · simp [invoke_llm_with_fallback, h0, h1]
  · simp [invoke_llm_with_fallback, h0]

/-- C4 witness: the attempt-bound theorem instantiated at a concrete
outcome table. -/
theorem c4_invoker_attempt_bound_witness :
    (invoke_llm_with_fallback false oFailingPrimary).primaryRuns ≤ 2 ∧
    (invoke_llm_with_fallback false oFailingPrimary).secondaryRuns ≤ 1 ∧
    ((invoke_llm_with_fallback false oFailingPrimary).degradedAfter = true ↔
      ((∃ e, oFailingPrimary.primaryAttempt 0 = .error e) ∧
       (∃ e, oFailingPrimary.primaryAttempt 1 = .error e))) ∧
    ((invoke_llm_with_fallback false oFailingPrimary).degradedAfter = true →
      (invoke_llm_with_fallback false oFailingPrimary).secondaryRuns = 1 ∧
      (invoke_llm_with_fallback false oFailingPrimary).result =
        oFailingPrimary.secondary) ∧
    ((invoke_llm_with_fallback false oFailingPrimary).degradedAfter = false →
      (invoke_llm_with_fallback false oFailingPrimary).secondaryRuns = 0) :=
  c4_invoker_attempt_bound oFailingPrimary

theorem runResearchLoops_le (maxLoops : Nat) (suff : Nat → Bool) :
    ∀ k c, c < maxLoops → runResearchLoops maxLoops suff k c ≤ maxLoops := by
  have H : ∀ n k c, maxLoops - c ≤ n → c < maxLoops →
      runResearchLoops maxLoops suff k c ≤ maxLoops := by
    intro n
    induction n with
    | zero => intro k c hn hc; omega
    | succ n ih =>
      intro k c hn hc
      rw [runResearchLoops]
      simp only [reflection_increment]
      split
      · rename_i h
        unfold evaluate_research at h
        split at h
        · exact absurd h (by decide)
        · split at h
          · exact absurd h (by decide)
          · rename_i hlt
            exact ih (k + 1) (c + 1) (by omega) (by omega)
      · -- exit round: final count is c + 1 and the router only exits
        -- when sufficiency holds (count is c + 1 ≤ maxLoops from hc) or
        -- when maxLoops ≤ c + 1
        omega
  intro k c hc
  exact H (maxLoops - c) k c (le_refl _) hc

/-- C3: the loop counter is a natural number (hence non-negative); a full
run started at count `0` ends with a count that never exceeds
`max_research_loops` (which the request validator constrains to `≥ 1`);
`reflection` increments the count by exactly one per loop; and the router
sends the flow back to `generate_query` exactly when the verdict is
"insufficient" and the incremented count is still strictly below the
maximum. -/
theorem c3_loop_bound (maxLoops : Nat) (suff : Nat → Bool)
    (hmax : 1 ≤ maxLoops) :
    runResearchLoops maxLoops suff 0 0 ≤ maxLoops ∧
    (∀ c, reflection_increment c = c + 1) ∧
    (∀ s c, evaluate_research s c maxLoops = "generate_query" ↔
      (s = false ∧ c < maxLoops)) := by
  refine ⟨runResearchLoops_le maxLoops suff 0 0 (by omega), fun c => rfl, ?_⟩
  intro s c
  unfold evaluate_research
  constructor
  · intro h
    split at h
    · exact absurd h (by decide)
    · split at h
      · exact absurd h (by decide)
      · rename_i hs hlt
        exact ⟨by simpa using hs, by omega⟩
  · rintro ⟨hs, hlt⟩
    subst hs
    rw [if_neg (by decide), if_neg (by omega)]

/-- C3 witness: the loop-bound theorem at `max_research_loops = 5` with a
never-sufficient verdict stream. -/
theorem c3_loop_bound_witness :
    runResearchLoops 5 (fun _ => false) 0 0 ≤ 5 ∧
    (∀ c, reflection_increment c = c + 1) ∧
    (∀ s c, evaluate_research s c 5 = "generate_query" ↔
      (s = false ∧ c < 5)) :=
  c3_loop_bound 5 (fun _ => false) (by omega)

/-- C7 (counterexample): with one unanswered question and
`initial_search_query_count = 3`, the cap would be `min 2 3 = 2`, but if
the planner returns five queries the node emits all five — the code puts
the cap only in the prompt and never clips the result. -/
theorem c7_query_cap_counterexample : ¬ c7_query_cap_claim := by
  intro h
  have h5 := h ["q1"] (some 3) ["a", "b", "c", "d", "e"] (by decide)
  simp [generate_query] at h5

/-- C7 (amended): in targeted mode the query count *requested from the
planner* equals `min(2 × |unanswered_questions|,
initial_search_query_count)`, but the emitted `new_search_query` list is
exactly the planner's raw output, with no clipping applied. -/
theorem c7_query_cap_amended (unanswered : List String)
    (initialCount : Option Nat) (llmQueries : List String)
    (h : unanswered ≠ []) :
    (generate_query unanswered initialCount llmQueries).maxQueriesRequested =
      min (2 * unanswered.length) (initialCount.getD 3) ∧
    (generate_query unanswered initialCount llmQueries).new_search_query =
      llmQueries := by
  have hlen : 0 < unanswered.length := List.length_pos.mpr h
  simp [generate_query, hlen, Nat.mul_comm]

/-- C7 witness: the amended theorem at the counterexample's input. -/
theorem c7_query_cap_amended_witness :
    (generate_query ["q1"] (some 3) ["a", "b", "c", "d", "e"]).maxQueriesRequested =
      min (2 * (["q1"] : List String).length) ((some 3 : Option Nat).getD 3) ∧
    (generate_query ["q1"] (some 3) ["a", "b", "c", "d", "e"]).new_search_query =
      ["a", "b", "c", "d", "e"] :=
  c7_query_cap_amended ["q1"] (some 3) ["a", "b", "c", "d", "e"] (by decide)

/-- C9: after every `generate_query` invocation the English-form list and
the display-form list have equal length — indeed the planner never emits
a display form, and the English form is used (copied) as the display
form. -/
theorem c9_display_form_invariant (llmQueries : List String) :
    (display_queries (generate_query_output llmQueries)).length =
      (generate_query_output llmQueries).new_search_query.length ∧
    (generate_query_output llmQueries).new_search_query_zh = none ∧
    display_queries (generate_query_output llmQueries) =
      (generate_query_output llmQueries).new_search_query :=
  ⟨rfl, rfl, rfl⟩

/-- C10: the verified-facts pair list has length
`min |verified_facts_text| |verified_facts_sources|` and the
disputed-claims pair list has length
`min |disputed_claims_text| |disputed_claims_reasons|`; the pairs match
positionally, so the surplus entries of the longer parallel list are
dropped. -/
theorem c10_verify_facts_zip (r : FactVerification) :
    (verify_facts_pairs r).1.length =
      min r.verified_facts_text.length r.verified_facts_sources.length ∧
    (verify_facts_pairs r).2.length =
      min r.disputed_claims_text.length r.disputed_claims_reasons.length ∧
    (∀ (i : Nat) (fact src : String), (verify_facts_pairs r).1[i]? = some (fact, src) ↔
      (r.verified_facts_text[i]? = some fact ∧
       r.verified_facts_sources[i]? = some src)) ∧
    (∀ (i : Nat) (claim reason : String), (verify_facts_pairs r).2[i]? = some (claim, reason) ↔
      (r.disputed_claims_text[i]? = some claim ∧
       r.disputed_claims_reasons[i]? = some reason)) := by
  refine ⟨List.length_zip _ _, List.length_zip _ _, ?_, ?_⟩
  · intro i fact src
    exact List.getElem?_zip_eq_some
  · intro i claim reason
    exact List.getElem?_zip_eq_some

theorem spaceCut_eq_of_some {t1 : Str} {C q : Nat}
    (h : rfindIdx ' ' t1 = some q) :
    spaceCut t1 C = if 4 * C < 5 * q then t1.take q else t1 := by
  unfold spaceCut
  rw [h]

theorem spaceCut_eq_of_none {t1 : Str} {C : Nat}
    (h : rfindIdx ' ' t1 = none) : spaceCut t1 C = t1 := by
  unfold spaceCut
  rw [h]

theorem periodCut_eq_of_some {t1 : Str} {C p : Nat}
    (h : rfindIdx '。' t1 = some p) :
    periodCut t1 C =
      if 4 * C < 5 * p then t1.take (p + 1) else spaceCut t1 C := by
  unfold periodCut
  rw [h]

theorem periodCut_eq_of_none {t1 : Str} {C : Nat}
    (h : rfindIdx '。' t1 = none) : periodCut t1 C = spaceCut t1 C := by
  unfold periodCut
  rw [h]

theorem rfindIdx_eq_some {c : Char} {s : Str} {p : Nat}
    (h : rfindIdx c s = some p) : s[p]? = some c := by
  induction s generalizing p with
  | nil => simp [rfindIdx] at h
  | cons x xs ih =>
    rw [rfindIdx] at h
    cases hq : rfindIdx c xs with
    | some q =>
      rw [hq] at h
      cases h
      simpa using ih hq
    | none =>
      rw [hq] at h
      by_cases hx : x = c
      · rw [if_pos hx] at h
        cases h
        simpa using hx
      · rw [if_neg hx] at h
        cases h

theorem rfindIdx_lt_length {c : Char} {s : Str} {p : Nat}
    (h : rfindIdx c s = some p) : p < s.length := by
  have := rfindIdx_eq_some h
  exact (List.getElem?_eq_some.mp this).1

theorem le_rfindIdx {c : Char} {s : Str} {i : Nat}
    (hi : s[i]? = some c) : ∃ p, rfindIdx c s = some p ∧ i ≤ p := by
  induction s generalizing i with
  | nil => simp at hi
  | cons x xs ih =>
    cases i with
    | zero =>
      rw [rfindIdx]
      cases hq : rfindIdx c xs with
      | some q => exact ⟨q + 1, rfl, by omega⟩
      | none =>
        simp only [List.getElem?_cons_zero, Option.some_inj] at hi
        exact ⟨0, by rw [if_pos hi], le_refl 0⟩
    | succ j =>
      simp only [List.getElem?_cons_succ] at hi
      obtain ⟨q, hq, hle⟩ := ih hi
      exact ⟨q + 1, by rw [rfindIdx, hq], by omega⟩

theorem spaceCut_spec (t1 : Str) (C : Nat) (hlen : t1.length = C)
    (hnoP : ∀ p, t1[p]? = some '。' → 5 * p ≤ 4 * C) :
    (spaceCut t1 C).length ≤ C ∧
    ((∃ p, (t1[p]? = some '。' ∨ t1[p]? = some ' ') ∧ 4 * C < 5 * p) →
      ∃ rest, t1 = spaceCut t1 C ++ ' ' :: rest ∧
        4 * C < 5 * (spaceCut t1 C).length) := by
  cases hsp : rfindIdx ' ' t1 with
  | some q =>
    by_cases hq : 4 * C < 5 * q
    · rw [spaceCut_eq_of_some hsp, if_pos hq]
      have hqlt : q < t1.length := rfindIdx_lt_length hsp
      have hqel : t1[q]? = some ' ' := rfindIdx_eq_some hsp
      obtain ⟨hlt2, hqget⟩ := List.getElem?_eq_some.mp hqel
      constructor
      · rw [List.length_take]
        omega
      · intro _
        refine ⟨t1.drop (q + 1), ?_, ?_⟩
        · conv_lhs => rw [← List.take_append_drop q t1]
          rw [List.drop_eq_getElem_cons hqlt, hqget]
        · rw [List.length_take]
          omega
    · rw [spaceCut_eq_of_some hsp, if_neg hq]
      refine ⟨by omega, ?_⟩
      rintro ⟨p, hp, hptail⟩
      exfalso
      rcases hp with hp | hp
      · have := hnoP p hp
        omega
      · obtain ⟨q2, hq2, hle⟩ := le_rfindIdx hp
        rw [hsp] at hq2
        cases hq2
        omega
  | none =>
    rw [spaceCut_eq_of_none hsp]
    refine ⟨by omega, ?_⟩
    rintro ⟨p, hp, hptail⟩
    exfalso
    rcases hp with hp | hp
    · have := hnoP p hp
      omega
    · obtain ⟨q2, hq2, _⟩ := le_rfindIdx hp
      rw [hsp] at hq2
      cases hq2

theorem periodCut_spec (t1 : Str) (C : Nat) (hlen : t1.length = C) :
    (periodCut t1 C).length ≤ C ∧
    ((∃ p, (t1[p]? = some '。' ∨ t1[p]? = some ' ') ∧ 4 * C < 5 * p) →
      ((∃ p, (periodCut t1 C).length = p + 1 ∧
          (periodCut t1 C)[p]? = some '。' ∧ 4 * C < 5 * p) ∨
       (∃ rest, t1 = periodCut t1 C ++ ' ' :: rest ∧
          4 * C < 5 * (periodCut t1 C).length))) := by
  cases hper : rfindIdx '。' t1 with
  | some p =>
    by_cases hp : 4 * C < 5 * p
    · rw [periodCut_eq_of_some hper, if_pos hp]
      have hplt : p < t1.length := rfindIdx_lt_length hper
      constructor
      · rw [List.length_take]
        omega
      · intro _
        left
        refine ⟨p, ?_, ?_, hp⟩
        · rw [List.length_take]
          omega
        · rw [List.getElem?_take, if_pos (by omega)]
          exact rfindIdx_eq_some hper
    · rw [periodCut_eq_of_some hper, if_neg hp]
      have hnoP : ∀ p2, t1[p2]? = some '。' → 5 * p2 ≤ 4 * C := by
        intro p2 hp2
        obtain ⟨p3, hp3, hle⟩ := le_rfindIdx hp2
        rw [hper] at hp3
        cases hp3
        omega
      have hs := spaceCut_spec t1 C hlen hnoP
      exact ⟨hs.1, fun hcut => Or.inr (hs.2 hcut)⟩
  | none =>
    rw [periodCut_eq_of_none hper]
    have hnoP : ∀ p2, t1[p2]? = some '。' → 5 * p2 ≤ 4 * C := by
      intro p2 hp2
      obtain ⟨p3, hp3, _⟩ := le_rfindIdx hp2
      rw [hper] at hp3
      cases hp3
    have hs := spaceCut_spec t1 C hlen hnoP
    exact ⟨hs.1, fun hcut => Or.inr (hs.2 hcut)⟩

/-- C5 (amended): for every document `D` and cap `C > 0` the emitted
text has length at most `C`; and when the whitespace-normalised `D` is
longer than `C` and the truncated prefix has a cut point — an
ideographic full stop `'。'` or a space — at a position `p` with
`5p > 4C` (strictly inside the tail 20% of the cap, the code's strict
comparison), the emitted text either ends with `'。'` at such a position
or is the prefix of the truncation ending just before a space at such a
position.  (The spec's broader "sentence-ending punctuation" is amended
to the single character `'。'` the code checks, and "within the last
20%" to the code's strict `> 0.8·C` comparison.) -/
theorem c5_truncation_amended (D : Str) (C : Nat) (hC : 0 < C) :
    (clean_and_truncate D C).length ≤ C ∧
    (C < (normalizeWs D).length →
      (∃ p, (((normalizeWs D).take C)[p]? = some '。' ∨
             ((normalizeWs D).take C)[p]? = some ' ') ∧ 4 * C < 5 * p) →
      ((∃ p, (clean_and_truncate D C).length = p + 1 ∧
          (clean_and_truncate D C)[p]? = some '。' ∧ 4 * C < 5 * p) ∨
       (∃ rest, (normalizeWs D).take C = clean_and_truncate D C ++ ' ' :: rest ∧
          4 * C < 5 * (clean_and_truncate D C).length))) := by
  by_cases hD : D = []
  · subst hD
    have hnil : normalizeWs ([] : Str) = [] := rfl
    constructor
    · simp [clean_and_truncate]
    · intro hlong
      rw [hnil] at hlong
      simp at hlong
  · by_cases hlen : C < (normalizeWs D).length
    · have hct : clean_and_truncate D C = periodCut ((normalizeWs D).take C) C := by
        unfold clean_and_truncate
        rw [if_neg hD, if_pos hlen]
      have ht1len : ((normalizeWs D).take C).length = C := by
        rw [List.length_take]
        omega
      have hs := periodCut_spec ((normalizeWs D).take C) C ht1len
      rw [hct]
      exact ⟨hs.1, fun _ hcut => hs.2 hcut⟩
    · have hct : clean_and_truncate D C = normalizeWs D := by
        unfold clean_and_truncate
        rw [if_neg hD, if_neg hlen]
      rw [hct]
      exact ⟨by omega, fun hlong => absurd hlong hlen⟩

/-- C5 (counterexample): with cap 20 and the document
`"aaaaaaaaaaaaaaaaa!bbbb"` (a `'!'` at position 17, inside the last 20%
of the cap), the code finds neither a `'。'` nor a space, so it emits
the raw 20-character prefix ending in `'b'` — it does not cut at the
`'!'` even though the claim's cut point exists in the tail region. -/
theorem c5_truncation_counterexample : ¬ c5_truncation_claim := by
  intro h
  exact absurd (h ("aaaaaaaaaaaaaaaaa!bbbb".data) 20 (by decide)) (by decide)

/-- C5 witness: the amended theorem at a concrete document whose
truncated prefix ends at a `'。'` inside the tail region. -/
theorem c5_truncation_amended_witness :
    (clean_and_truncate ("aaaaaaaaa。bbb".data) 10).length ≤ 10 ∧
    ((∃ p, (clean_and_truncate ("aaaaaaaaa。bbb".data) 10).length = p + 1 ∧
        (clean_and_truncate ("aaaaaaaaa。bbb".data) 10)[p]? = some '。' ∧
        4 * 10 < 5 * p) ∨
     (∃ rest, (normalizeWs ("aaaaaaaaa。bbb".data)).take 10 =
          clean_and_truncate ("aaaaaaaaa。bbb".data) 10 ++ ' ' :: rest ∧
        4 * 10 < 5 * (clean_and_truncate ("aaaaaaaaa。bbb".data) 10).length)) := by
  have h := c5_truncation_amended ("aaaaaaaaa。bbb".data) 10 (by decide)
  exact ⟨h.1, h.2 (by decide) ⟨9, by decide⟩⟩

/-- C8: a missing search API key is the only way the search call raises;
with a key present every upstream failure (non-200 status, provider
error code, empty payload, empty page list, network exception) returns
normally with an empty page list and the corresponding failure text, and
`web_research` then falls back to that formatted text as its LLM context
(the empty page list yields no deep-scraped documents); a successful
exchange returns the provider's page list with its formatted summary. -/
theorem c8_search_failure_containment (u : UpstreamOutcome)
    (scraped : List (String × String)) (topK maxTotal : Nat) :
    bocha_web_search false u =
      .error "BOCHA_API_KEY is not set in environment variables" ∧
    (upstream_failed u = true →
      bocha_web_search true u = .ok ⟨[], bocha_failure_text u⟩ ∧
      web_research_context [] scraped topK maxTotal (bocha_failure_text u) =
        bocha_failure_text u) ∧
    (upstream_failed u = false →
      bocha_web_search true u =
        .ok ⟨u.pages, format_bocha_search_results u.pages⟩ ∧
      u.pages ≠ []) := by
  have hctx : web_research_context [] scraped topK maxTotal
      (bocha_failure_text u) = bocha_failure_text u := by
    simp [web_research_context, deep_docs_of]
  refine ⟨rfl, ?_, ?_⟩
  · intro hf
    refine ⟨?_, hctx⟩
    cases u with
    | exn e => rfl
    | resp status body =>
      by_cases h200 : status = 200
      · by_cases hcode : body.code ≠ 200 ∨ body.dataPresent = false
        · simp [bocha_web_search, bocha_failure_text, h200, hcode]
        · have hempty : body.webpages.isEmpty = true := by
            simpa [upstream_failed, h200, hcode] using hf
          simp [bocha_web_search, bocha_failure_text, h200, hcode, hempty]
      · simp [bocha_web_search, bocha_failure_text, h200]
  · intro hf
    cases u with
    | exn e => simp [upstream_failed] at hf
    | resp status body =>
      by_cases h200 : status = 200
      · by_cases hcode : body.code ≠ 200 ∨ body.dataPresent = false
        · simp [upstream_failed, h200, hcode] at hf
        · have hempty : body.webpages.isEmpty = false := by
            simpa [upstream_failed, h200, hcode] using hf
          constructor
          · simp [bocha_web_search, UpstreamOutcome.pages, h200, hcode, hempty]
          · simp only [UpstreamOutcome.pages]
            intro hnil
            rw [hnil] at hempty
            simp at hempty
      · simp [upstream_failed, h200] at hf

/-- C8 witness: the containment theorem at a concrete failing exchange
(HTTP 500). -/
theorem c8_search_failure_containment_witness :
    bocha_web_search true (.resp 500 ⟨200, true, [], "boom"⟩) =
      .ok ⟨[], bocha_failure_text (.resp 500 ⟨200, true, [], "boom"⟩)⟩ ∧
    web_research_context [] [] 5 80000
        (bocha_failure_text (.resp 500 ⟨200, true, [], "boom"⟩)) =
      bocha_failure_text (.resp 500 ⟨200, true, [], "boom"⟩) :=
  (c8_search_failure_containment (.resp 500 ⟨200, true, [], "boom"⟩)
      [] 5 80000).2.1 rfl

theorem replaceStep_eq_of_none {e : Entry} {c : Str}
    (h : pyGet e ("shortUrl".data) = none) :
    replaceStep c e = .error "KeyError: 'shortUrl'" := by
  unfold replaceStep
  rw [h]

theorem replaceStep_eq_of_some {e : Entry} {c su : Str}
    (h : pyGet e ("shortUrl".data) = some su) :
    replaceStep c e =
      if containsSub c su then
        match pyGet e ("value".data) with
        | none => .error "KeyError: 'value'"
        | some v => .ok (replaceList su v c)
      else .ok c := by
  unfold replaceStep
  rw [h]

theorem replaceAllSources_cons_error {e : Entry} {es : List Entry}
    {c : Str} {err : String} (h : replaceStep c e = .error err) :
    replaceAllSources (e :: es) c = .error err := by
  unfold replaceAllSources
  rw [h]

theorem replaceAllSources_cons_ok {e : Entry} {es : List Entry}
    {c c2 : Str} (h : replaceStep c e = .ok c2) :
    replaceAllSources (e :: es) c = replaceAllSources es c2 := by
  conv_lhs => unfold replaceAllSources
  rw [h]

theorem replaceAllSources_keys :
    ∀ {entries : List Entry} {r t : Str},
      replaceAllSources entries r = .ok t →
      ∀ e ∈ entries, (pyGet e ("shortUrl".data)).isSome = true := by
  intro entries
  induction entries with
  | nil =>
    intro r t h e he
    simp at he
  | cons e0 es ih =>
    intro r t h e he
    cases hstep : replaceStep r e0 with
    | error err =>
      rw [replaceAllSources_cons_error hstep] at h
      cases h
    | ok c2 =>
      rw [replaceAllSources_cons_ok hstep] at h
      rcases List.mem_cons.mp he with rfl | hmem
      · cases hsu : pyGet e ("shortUrl".data) with
        | none =>
          rw [replaceStep_eq_of_none hsu] at hstep
          cases hstep
        | some su => rfl
      · exact ih h e hmem

theorem replaceListF_of_not_contains {pat rep : Str} :
    ∀ (fuel : Nat) (s : Str), containsSub s pat = false →
      replaceListF pat rep fuel s = s := by
  intro fuel
  induction fuel with
  | zero =>
    intro s _
    cases s <;> rfl
  | succ n ih =>
    intro s h
    cases s with
    | nil => rfl
    | cons c rest =>
      have hparts : pat.isPrefixOf (c :: rest) = false ∧
          containsSub rest pat = false := by
        unfold containsSub at h ⊢
        rw [List.tails_cons, List.any_cons] at h
        constructor
        · exact (Bool.or_eq_false_iff.mp h).1
        · exact (Bool.or_eq_false_iff.mp h).2
      rw [replaceListF, if_neg]
      · rw [ih rest hparts.2]
      · rintro ⟨-, hpre⟩
        rw [hparts.1] at hpre
        cases hpre

theorem replaceList_of_not_contains {pat rep s : Str}
    (h : containsSub s pat = false) : replaceList pat rep s = s :=
  replaceListF_of_not_contains s.length s h

theorem replaceAllSources_noop (entries : List Entry) (r : Str)
    (hkeys : ∀ e ∈ entries, (pyGet e ("shortUrl".data)).isSome = true)
    (hnc : ∀ e ∈ entries,
      (pyGet e ("shortUrl".data)).all (fun su => !containsSub r su) = true) :
    replaceAllSources entries r = .ok r := by
  induction entries with
  | nil => rfl
  | cons e0 es ih =>
    have hk0 := hkeys e0 (List.mem_cons_self e0 es)
    cases hsu : pyGet e0 ("shortUrl".data) with
    | none => rw [hsu] at hk0; cases hk0
    | some su =>
      have hnc0 := hnc e0 (List.mem_cons_self e0 es)
      rw [hsu] at hnc0
      simp only [Option.all_some, Bool.not_eq_eq_eq_not, Bool.not_true] at hnc0
      have hstep : replaceStep r e0 = .ok r := by
        rw [replaceStep_eq_of_some hsu, if_neg]
        simp [hnc0]
      rw [replaceAllSources_cons_ok hstep]
      exact ih (fun e he => hkeys e (List.mem_cons_of_mem e0 he))
        (fun e he => hnc e (List.mem_cons_of_mem e0 he))

theorem finalize_pass_eq_of_replace_error {report : Str}
    {entries : List Entry} {err : String}
    (h : replaceAllSources entries report = .error err) :
    finalize_citation_pass report entries = .error err := by
  unfold finalize_citation_pass
  rw [h]

theorem finalize_pass_eq_of_replace_ok {report : Str}
    {entries : List Entry} {enhanced : Str}
    (h : replaceAllSources entries report = .ok enhanced) :
    finalize_citation_pass report entries =
      (if (scanCitations report).isEmpty then
        .ok (enhanced, sortedEntries entries)
      else if hasRefHeading enhanced then
        .ok (enhanced, sortedEntries entries)
      else
        .ok (enhanced ++ refSectionText (scanCitations report)
              (sortedEntries entries), sortedEntries entries)) := by
  unfold finalize_citation_pass
  rw [h]

theorem hasRefHeading_of_suffix {t s : Str} (hsuf : t <:+ s)
    (hm : headMatch t = true) : hasRefHeading s = true := by
  unfold hasRefHeading
  rw [List.any_eq_true]
  exact ⟨t, (List.mem_tails t s).mpr hsuf, hm⟩

theorem headMatch_refSection (rest : Str) :
    headMatch (("## 参考来源\n\n".data) ++ rest) = true := rfl

theorem hasRefHeading_append_refSection (a : Str) (found : List Str)
    (sorted : List Entry) :
    hasRefHeading (a ++ refSectionText found sorted) = true := by
  apply hasRefHeading_of_suffix
    (t := ("## 参考来源\n\n".data) ++ (refLines found sorted).flatten)
  · refine ⟨a ++ ("\n\n---\n\n".data), ?_⟩
    rw [show refSectionText found sorted =
        ("\n\n---\n\n".data) ++ (("## 参考来源\n\n".data) ++
          (refLines found sorted).flatten) from by
      unfold refSectionText
      rw [show refHeaderStr = ("\n\n---\n\n".data) ++ ("## 参考来源\n\n".data)
        from by decide, List.append_assoc]]
    rw [List.append_assoc]
  · exact headMatch_refSection _

/-- C6 (amended): the citation-resolution pass is idempotent on every
report it completes on, provided the first pass's rewriting removed every
gathered short-url from its output (`h1`) and the rewriting did not
conjure citation markers out of a marker-free report (`h2`): running the
pass again on its own output changes nothing — the short-url replacement
is a no-op and no second references section is appended. -/
theorem c6_idempotent_amended (report : Str) (entries : List Entry)
    (r1 : Str) (sorted : List Entry)
    (hok : finalize_citation_pass report entries = .ok (r1, sorted))
    (h1 : ∀ e ∈ entries,
      (pyGet e ("shortUrl".data)).all (fun su => !containsSub r1 su) = true)
    (h2 : scanCitations report = [] → scanCitations r1 = []) :
    finalize_citation_pass r1 entries = .ok (r1, sorted) := by
  cases hrep : replaceAllSources entries report with
  | error err =>
    rw [finalize_pass_eq_of_replace_error hrep] at hok
    cases hok
  | ok enhanced =>
    have hkeys := replaceAllSources_keys hrep
    have hrep2 : replaceAllSources entries r1 = .ok r1 :=
      replaceAllSources_noop entries r1 hkeys h1
    rw [finalize_pass_eq_of_replace_ok hrep] at hok
    rw [finalize_pass_eq_of_replace_ok hrep2]
    by_cases hfe : (scanCitations report).isEmpty
    · rw [if_pos hfe] at hok
      obtain ⟨he, hs⟩ : enhanced = r1 ∧ sortedEntries entries = sorted := by
        cases hok
        exact ⟨rfl, rfl⟩
      have hr1e : scanCitations r1 = [] := h2 (List.isEmpty_iff.mp hfe)
      rw [if_pos (List.isEmpty_iff.mpr hr1e), hs]
    · rw [if_neg hfe] at hok
      by_cases hhr : hasRefHeading enhanced
      · rw [if_pos hhr] at hok
        obtain ⟨he, hs⟩ : enhanced = r1 ∧ sortedEntries entries = sorted := by
          cases hok
          exact ⟨rfl, rfl⟩
        by_cases hfe2 : (scanCitations r1).isEmpty
        · rw [if_pos hfe2, hs]
        · rw [if_neg hfe2, if_pos (he ▸ hhr), hs]
      · rw [if_neg hhr] at hok
        obtain ⟨he, hs⟩ : enhanced ++ refSectionText (scanCitations report)
              (sortedEntries entries) = r1 ∧ sortedEntries entries = sorted := by
          cases hok
          exact ⟨rfl, rfl⟩
        by_cases hfe2 : (scanCitations r1).isEmpty
        · rw [if_pos hfe2, hs]
        · have hhr2 : hasRefHeading r1 = true := by
            rw [← he]
            exact hasRefHeading_append_refSection _ _ _
          rw [if_neg hfe2, if_pos hhr2, hs]

/-- C6 (counterexample): when a source's real url contains its own
short-url (short-url `S`, real url `S!`), the first pass rewrites
`"[1] S"` to `"[1] S!…"` and the second pass rewrites again to
`"[1] S!!…"` — the replacement is not a no-op on the second
application, so the pass is not idempotent as stated. -/
theorem c6_idempotence_counterexample : ¬ c6_idempotence_claim := by
  intro h
  have h2 := h c6Report [srcEntryExcl] c6R1 [srcEntryExcl] rfl
  have h3 := congrArg Except.toOption h2
  exact absurd h3 (by decide)

/-- C6 witness: the amended idempotence theorem at a concrete report and
source whose first pass removes the short-url. -/
theorem c6_idempotent_amended_witness :
    finalize_citation_pass c6R1V [srcEntryV] = .ok (c6R1V, [srcEntryV]) :=
  c6_idempotent_amended c6Report [srcEntryV] c6R1V [srcEntryV] rfl
    (by decide) (by decide)

/-- C1 (counterexample): on a report that already contains a references
heading, the pass appends nothing, so a marker `[1]` with no gathered
sources ends up with neither a matching source entry nor a
`来源未找到` record — the closure fails as stated. -/
theorem c1_citation_closure_counterexample : ¬ c1_citation_closure_claim := by
  intro h
  have h2 := h c1Report [] c1Report [] rfl ("1".data) (by decide)
  exact absurd h2 (by decide)

theorem appendedRefLines_eq_of_ok {report : Str} {entries : List Entry}
    {enhanced : Str}
    (h : replaceAllSources entries report = .ok enhanced) :
    appendedRefLines report entries =
      (if (scanCitations report).isEmpty then []
       else if hasRefHeading enhanced then []
       else refLines (scanCitations report) (sortedEntries entries)) := by
  unfold appendedRefLines
  rw [h]

/-- C1 (amended): when the pass completes and appends a references
section (markers found, no references heading already present), the
section contains, for every scanned marker `[N]`, the line produced by
`refLine`: markers are resolved *positionally* — `N` picks the `N`-th
entry (1-based) of the suffix-sorted source list — and any `N` outside
`1..len` is recorded as `来源未找到` ("source not found"); no
suffix-equality between `N` and the short-url is established, and
nothing is recorded when the report already has a references heading. -/
theorem c1_citation_closure_amended (report : Str) (entries : List Entry)
    (enhanced : Str)
    (hrep : replaceAllSources entries report = .ok enhanced)
    (hfound : (scanCitations report).isEmpty = false)
    (href : hasRefHeading enhanced = false) :
    finalize_citation_pass report entries =
      .ok (enhanced ++ refSectionText (scanCitations report)
            (sortedEntries entries), sortedEntries entries) ∧
    (∀ ds ∈ scanCitations report,
      refLine (sortedEntries entries) (digitsVal ds) ∈
        appendedRefLines report entries) ∧
    (∀ n : Nat, n = 0 ∨ (sortedEntries entries).length < n →
      refLine (sortedEntries entries) n = notFoundLine n) := by
  refine ⟨?_, ?_, ?_⟩
  · rw [finalize_pass_eq_of_replace_ok hrep, if_neg (by simp [hfound]),
      if_neg (by simp [href])]
  · intro ds hds
    rw [appendedRefLines_eq_of_ok hrep, if_neg (by simp [hfound]),
      if_neg (by simp [href])]
    unfold refLines sortedCitations
    apply List.mem_map_of_mem
    rw [mem_sortByKey]
    exact List.mem_map_of_mem digitsVal (List.mem_dedup.mpr hds)
  · intro n hn
    unfold refLine notFoundLine
    rw [if_neg (by omega)]

/-- C1 witness: the amended theorem at a concrete report with an
in-range marker `[1]` and an out-of-range marker `[5]`. -/
theorem c1_citation_closure_amended_witness :
    finalize_citation_pass c1ReportW [srcEntryV] =
      .ok (c1EnhW ++ refSectionText (scanCitations c1ReportW)
            (sortedEntries [srcEntryV]), sortedEntries [srcEntryV]) ∧
    (∀ ds ∈ scanCitations c1ReportW,
      refLine (sortedEntries [srcEntryV]) (digitsVal ds) ∈
        appendedRefLines c1ReportW [srcEntryV]) ∧
    (∀ n : Nat, n = 0 ∨ (sortedEntries [srcEntryV]).length < n →
      refLine (sortedEntries [srcEntryV]) n = notFoundLine n) :=
  c1_citation_closure_amended c1ReportW [srcEntryV] c1EnhW rfl
    (by decide) (by decide)
